import Mathlib

/-!
Verification of the iCloud deployment script (`scripts/deploy_to_icloud.py`).

The development shallowly embeds the script's sync engine:
* Python string manipulation (`str.split`, `str.strip`, `str.startswith`,
  `os.path.basename`, `os.path.dirname`) is modelled by structurally
  recursive functions over the character list of a `String`;
* the iCloud drive tree is a finite tree of named nodes (`DNode`);
* remote calls that can fail are modelled in the `Except PyError` monad,
  with "failure oracles" (`String → Bool`) injecting remote failures at
  chosen nodes, mirroring exceptions raised by the `pyicloud` library;
* each remote mutation issued by the script is recorded in a trace of
  `RemoteOp` events.
-/

namespace Deploy

/-! ## Python string primitives -/

/-- Model of Python `s.split(sep)` on the character list (single-character
separator, as used with `os.sep = "/"`, `"\t"` and `"\n"` in the script).
`"".split(sep) == [""]` and separators at the ends produce empty pieces,
exactly as in Python. -/
def splitCh (sep : Char) : List Char → List (List Char)
  | [] => [[]]
  | c :: rest =>
    let r := splitCh sep rest
    if c = sep then [] :: r
    else
      match r with
      | [] => [[c]]
      | g :: gs => (c :: g) :: gs

/-- Rebuild a `String` from its characters. -/
def ofChars (l : List Char) : String := ⟨l⟩

/-- Python `s.split(sep)` for a single-character separator. -/
def pySplit (s : String) (sep : Char) : List String := (splitCh sep s.data).map ofChars

/-- The whitespace characters stripped by Python `str.strip()` (restricted to
the ASCII whitespace that can actually occur in the script's data: git
revision ids and state-file content). -/
def isWs (c : Char) : Bool := c = ' ' || c = '\t' || c = '\n' || c = '\r'

/-- Model of Python `s.strip()`: drop whitespace from both ends. -/
def pyStrip (s : String) : String :=
  ofChars ((((s.data.dropWhile isWs).reverse).dropWhile isWs).reverse)

/-- Boolean list-prefix test used to model Python `s.startswith(pre)`. -/
def leadsWith : List Char → List Char → Bool
  | [], _ => true
  | _ :: _, [] => false
  | a :: as, b :: bs => a = b && leadsWith as bs

/-- Model of Python `s.startswith(pre)`. -/
def pyStartsWith (s pre : String) : Bool := leadsWith pre.data s.data

/-- Model of `os.path.basename(p)` for the slash-separated relative paths the
script manipulates: the part after the last separator. -/
def basename (p : String) : String := (pySplit p '/').getLastD ""

/-- The directory segments traversed by the script for an upsert:
`os.path.dirname(path).split(os.sep)` followed by the loop's
`if not d: continue` filter that drops empty segments. -/
def dirSegments (p : String) : List String :=
  ((pySplit p '/').dropLast).filter (fun d => !(d = "" : Bool))

/-! ## Configuration constants (from the script's module level) -/

/-- `STATE_FILE_NAME = "last_deployed_commit.txt"`. -/
def STATE_FILE_NAME : String := "last_deployed_commit.txt"

/-- The default whitelist `DEFAULT_FOLDERS` parsed into `FOLDERS_TO_SYNC`. -/
def FOLDERS_TO_SYNC : List String :=
  ["bread", "config", "desserts", "entrees", "salad", "sides", "soup"]

/-! ## Exceptions -/

/-- The exceptions observable by the script's handlers:
`KeyError` (child-by-name lookup miss on a drive node),
`PyiCloudAPIResponseException` with its HTTP-like `code`, and any other
exception (connection errors and the like). -/
inductive PyError where
  | keyError : PyError
  | apiError : Nat → PyError
  | generic : PyError
deriving DecidableEq, Repr

/-! ## `retry_api_call` -/

/-- One iteration of the `for i in range(retries)` loop of `retry_api_call`,
with explicit fuel (`fuel = retries - i` at every call).  `f i` is the
outcome of invoking the wrapped operation on attempt `i` (0-based).  The
result pairs the call's outcome (`none` models Python's implicit `return
None` when the loop runs zero times) with the list of sleep durations, in
order.  Mirrors the source: a `PyiCloudAPIResponseException` with code 503
or 500 sleeps `delay * 2 ** i` and retries (re-raising on the last attempt);
any such exception with another code re-raises at once; any other exception
sleeps the constant `delay` and retries (re-raising on the last attempt). -/
def retryLoop {α : Type} (f : Nat → Except PyError α) (retries delay : Nat) :
    Nat → Nat → Option (Except PyError α) × List Nat
  | _, 0 => (none, [])
  | i, fuel + 1 =>
    match f i with
    | .ok a => (some (.ok a), [])
    | .error e =>
      match e with
      | .apiError code =>
        if code = 503 ∨ code = 500 then
          if i = retries - 1 then (some (.error (.apiError code)), [])
          else
            let rest := retryLoop f retries delay (i + 1) fuel
            (rest.1, delay * 2 ^ i :: rest.2)
        else (some (.error (.apiError code)), [])
      | other =>
        if i = retries - 1 then (some (.error other), [])
        else
          let rest := retryLoop f retries delay (i + 1) fuel
          (rest.1, delay :: rest.2)

/-- `retry_api_call(func, retries=3, delay=2)`: run the loop from attempt 0. -/
def retry_api_call {α : Type} (f : Nat → Except PyError α) (retries delay : Nat) :
    Option (Except PyError α) × List Nat :=
  retryLoop f retries delay 0 retries

/-- The exponential backoff schedule `delay * 2 ** i` for `k` consecutive
transient API failures starting at attempt `i`. -/
def backoffs (delay i : Nat) : Nat → List Nat
  | 0 => []
  | k + 1 => delay * 2 ^ i :: backoffs delay (i + 1) k

/-! ## The remote drive tree -/

/-- A node of the iCloud drive tree: a file, or a folder with a list of
named children (`pyicloud` exposes name-indexed child lookup). -/
inductive DNode where
  | file : DNode
  | folder : List (String × DNode) → DNode

/-- Name-indexed child lookup (`node[name]`): first child with that name,
`none` modelling the `KeyError` raised on a miss. -/
def childGet : List (String × DNode) → String → Option DNode
  | [], _ => none
  | (n, c) :: rest, name => if n = name then some c else childGet rest name

/-- Replace the first child called `name` by `newC` (used to write back a
modified subtree along the same path the lookup followed). -/
def childModify : List (String × DNode) → String → DNode → List (String × DNode)
  | [], _, _ => []
  | (n, c) :: rest, name, newC =>
    if n = name then (n, newC) :: rest else (n, c) :: childModify rest name newC

/-- Remove the first child called `name` (the effect of `node.delete()` on
the parent's child list). -/
def childErase : List (String × DNode) → String → List (String × DNode)
  | [], _ => []
  | (n, c) :: rest, name =>
    if n = name then rest else (n, c) :: childErase rest name

/-- Resolve a segment list from a node by repeated child lookup, as in the
`for part in path_parts: node = node[part]` loop; `none` when some lookup
raises `KeyError` (including indexing into a file node). -/
def resolve : List String → DNode → Option DNode
  | [], n => some n
  | _ :: _, .file => none
  | p :: ps, .folder cs =>
    match childGet cs p with
    | none => none
    | some c => resolve ps c

/-- Remove the node reached by the segment list (the remote effect of
`node.delete()` on the node resolved by `delete_file`); the tree is
unchanged when the path does not resolve. -/
def removeAt : List String → DNode → DNode
  | [], n => n
  | [p], .folder cs => .folder (childErase cs p)
  | _ :: _, .file => .file
  | p :: ps, .folder cs =>
    match childGet cs p with
    | none => .folder cs
    | some c => .folder (childModify cs p (removeAt ps c))

/-- The navigation loop of `delete_file` with remote-failure injection:
`rf seg = true` makes the child lookup of segment `seg` fail with a remote
API error instead of answering; a plain miss raises `KeyError`. -/
def navigateSegs (rf : String → Bool) : List String → DNode → Except PyError DNode
  | [], n => .ok n
  | p :: ps, n =>
    if rf p then .error (.apiError 503)
    else
      match n with
      | .file => .error .keyError
      | .folder cs =>
        match childGet cs p with
        | none => .error .keyError
        | some c => navigateSegs rf ps c

/-- What `delete_file` prints on each exit path: the happy path, the
`except KeyError` skip, and the catch-all `except Exception` log. -/
inductive DeleteLog where
  | deleted : DeleteLog
  | skippedNotFound : DeleteLog
  | errorLogged : DeleteLog
deriving DecidableEq, Repr

/-- The `try` block of `delete_file`: split the path on `os.sep`, navigate
segment by segment, then call `node.delete()` (which fails remotely when
`df relPath = true`). -/
def delete_file_body (rf df : String → Bool) (tree : DNode) (relPath : String) :
    Except PyError DNode :=
  match navigateSegs rf (pySplit relPath '/') tree with
  | .error e => .error e
  | .ok _ =>
    if df relPath then .error (.apiError 503)
    else .ok (removeAt (pySplit relPath '/') tree)

/-- `delete_file(icloud_folder, relative_path)`: the `try` block wrapped in
the source's two handlers, `except KeyError` (path treated as already
absent) and `except Exception` (error logged); both return normally with
the tree unchanged. -/
def delete_file (rf df : String → Bool) (tree : DNode) (relPath : String) :
    Except PyError (DNode × DeleteLog) :=
  match delete_file_body rf df tree relPath with
  | .ok t => .ok (t, .deleted)
  | .error .keyError => .ok (tree, .skippedNotFound)
  | .error _ => .ok (tree, .errorLogged)

mutual
/-- Well-formedness of a drive tree: within every folder the child names are
pairwise distinct (iCloud drive folders are name-indexed), recursively. -/
def nodeWF : DNode → Bool
  | .file => true
  | .folder cs => childrenWF cs
/-- Well-formedness of a child list: no duplicate names, all subtrees
well-formed. -/
def childrenWF : List (String × DNode) → Bool
  | [] => true
  | (n, c) :: rest => (childGet rest n).isNone && nodeWF c && childrenWF rest
end

/-- Boolean success test for a modelled Python call: `true` unless the call
propagated an exception. -/
def isOkE {ε α : Type} : Except ε α → Bool
  | .ok _ => true
  | .error _ => false

/-- The constant no-failure oracle. -/
def nofail : String → Bool := fun _ => false

/-- The constant always-fail oracle. -/
def alwaysFail : String → Bool := fun _ => true

/-! ## Remote mutations issued by the sync engine -/

/-- The remote calls the script issues, recorded as a trace:
`mkdirOp name` for `node.mkdir(name)`, `uploadOp relPath` for an upload of
the local file at `relPath`, `deleteOp relPath` for `node.delete()` on the
remote node at `relPath`, and `markerWrite rev` for
`update_last_deployed_commit(app_folder, rev)`. -/
inductive RemoteOp where
  | mkdirOp : String → RemoteOp
  | uploadOp : String → RemoteOp
  | deleteOp : String → RemoteOp
  | markerWrite : String → RemoteOp
deriving DecidableEq, Repr

/-- `upload_file(drive_folder, local_path, relative_path)` acting on the
destination folder node (the script passes `local_path = relative_path`, so
the remote file name is `basename relPath`).  If a node of that name exists
it is deleted first ("Let's try deleting first to be safe") by an
unprotected call that propagates a remote failure (`df relPath = true`).
The upload itself is wrapped in `retry_api_call`; `uf relPath = true`
models its failing even after retry exhaustion, which re-raises. -/
def upload_file (uf df : String → Bool) (relPath : String) (node : DNode) :
    Except PyError (DNode × List RemoteOp) :=
  let filename := basename relPath
  match node with
  | .file => .error (.apiError 500)
  | .folder cs =>
    match childGet cs filename with
    | some _ =>
      if df relPath then .error (.apiError 503)
      else if uf relPath then .error (.apiError 503)
      else .ok (.folder (childErase cs filename ++ [(filename, .file)]),
                [.deleteOp relPath, .uploadOp relPath])
    | none =>
      if uf relPath then .error (.apiError 503)
      else .ok (.folder (cs ++ [(filename, .file)]), [.uploadOp relPath])

/-- The `for d in dirs` traversal of `main`'s upsert branch followed by the
final `upload_file`: walk the directory segments from the app folder,
looking each one up and creating it with a retried `mkdir` when missing
(`mf d = true` models the mkdir failing, which propagates; the
mkdir-result parse fallback of the source always lands on the freshly
created folder here).  At the end of the walk the file is uploaded into
the reached folder. -/
def upsertAlong (mf uf df : String → Bool) (relPath : String) :
    List String → DNode → Except PyError (DNode × List RemoteOp)
  | [], node => upload_file uf df relPath node
  | d :: ds, node =>
    match node with
    | .file => .error (.apiError 500)
    | .folder cs =>
      match childGet cs d with
      | some c =>
        match upsertAlong mf uf df relPath ds c with
        | .error e => .error e
        | .ok (c', ops) => .ok (.folder (childModify cs d c'), ops)
      | none =>
        if mf d then .error (.apiError 503)
        else
          match upsertAlong mf uf df relPath ds (.folder []) with
          | .error e => .error e
          | .ok (c', ops) => .ok (.folder (cs ++ [(d, c')]), .mkdirOp d :: ops)

/-- The remote delete calls actually issued by one `delete_file` run, read
off its log: a resolved node leads to one `node.delete()` call (which may
then fail and be logged); a `KeyError` skip issues none. -/
def deleteOps (relPath : String) : DeleteLog → List RemoteOp
  | .deleted => [.deleteOp relPath]
  | .errorLogged => [.deleteOp relPath]
  | .skippedNotFound => []

/-- One iteration of `main`'s incremental loop on a change record
`(status, path)`: skip when `path` does not start with a whitelisted
folder name followed by `os.sep`; on status `'D'` call `delete_file`
(which never raises); otherwise check the local file still exists
(`locE path`), warning and skipping when it has vanished, and upsert it
along its directory segments. -/
def processChange (wl : List String) (locE rf df mf uf : String → Bool)
    (tree : DNode) (chg : Char × String) : Except PyError (DNode × List RemoteOp) :=
  let status := chg.1
  let path := chg.2
  if !(wl.any fun f => pyStartsWith path (f ++ "/")) then .ok (tree, [])
  else if status = 'D' then
    match delete_file rf df tree path with
    | .ok (t, log) => .ok (t, deleteOps path log)
    | .error e => .error e
  else if locE path then upsertAlong mf uf df path (dirSegments path) tree
  else .ok (tree, [])

/-- The `for status, path in changes` loop: apply the records in order,
accumulating the remote-call trace; a propagated exception aborts the
loop (and the run). -/
def applyChanges (wl : List String) (locE rf df mf uf : String → Bool) :
    DNode → List (Char × String) → Except PyError (DNode × List RemoteOp)
  | tree, [] => .ok (tree, [])
  | tree, chg :: rest =>
    match processChange wl locE rf df mf uf tree chg with
    | .error e => .error e
    | .ok (t1, ops1) =>
      match applyChanges wl locE rf df mf uf t1 rest with
      | .error e => .error e
      | .ok (t2, ops2) => .ok (t2, ops1 ++ ops2)

/-- The remote-tree effect of `update_last_deployed_commit`: delete any
existing marker node (ignoring `KeyError`) and upload the marker file into
the app folder.  The whole body is inside `try ... except Exception`, so
the call always returns normally. -/
def writeMarkerNode : DNode → DNode
  | .file => .file
  | .folder cs => .folder (childErase cs STATE_FILE_NAME ++ [(STATE_FILE_NAME, .file)])

/-- The incremental branch of `main` (a previous deployment was found):
with an empty change list it only prints "No changes detected" — the
`else` block holding both the loop and the marker update is skipped — and
otherwise it applies every change and then writes the state marker with
the current revision id. -/
def incrementalRun (wl : List String) (locE rf df mf uf : String → Bool)
    (tree : DNode) (changes : List (Char × String)) (rev : String) :
    Except PyError (DNode × List RemoteOp) :=
  if changes.isEmpty then .ok (tree, [])
  else
    match applyChanges wl locE rf df mf uf tree changes with
    | .error e => .error e
    | .ok (t, ops) => .ok (writeMarkerNode t, ops ++ [.markerWrite rev])

/-! ## `get_git_changes` -/

/-- Parse one `git diff --name-status` line: split on tabs, require at
least two fields, and keep the first character of the status field with
the first path field (`parts[0][0]`, `parts[1]`).  A rename line
`R<score>\told\tnew` therefore yields `('R', old)` — the OLD path. -/
def parseChangeLine (line : String) : Option (Char × String) :=
  match pySplit line '\t' with
  | p0 :: p1 :: _ =>
    match p0.data with
    | [] => none
    | c :: _ => some (c, p1)
  | _ => none

/-- `get_git_changes(last_hash, current_hash)` as a function of the diff
command's decoded output: strip it, return no records when it is empty,
and otherwise parse each line. -/
def get_git_changes (output : String) : List (Char × String) :=
  let out := pyStrip output
  if out.data.isEmpty then []
  else (pySplit out '\n').filterMap parseChangeLine

/-! ## Full sync (`sync_directory`) -/

/-- A local directory entry as seen by `os.scandir`, in listing order. -/
inductive LocalEntry where
  | file : String → LocalEntry
  | dir : String → List LocalEntry → LocalEntry

/-- Relative path of an entry (`os.path.relpath(entry.path, os.getcwd())`):
the accumulated directory path joined with the entry name. -/
def relJoin (relDir name : String) : String :=
  if relDir.data.isEmpty then name else relDir ++ "/" ++ name

mutual
/-- One `os.scandir` entry inside `sync_directory`: hidden names and
`__pycache__` are always skipped; a file is uploaded when its relative
path starts with a whitelisted folder followed by `os.sep`; a directory is
entered when its relative path is exactly whitelisted or nested under a
whitelisted folder, creating the matching remote folder when missing
(via the retried `mkdir` with its parse fallback, `mf` injecting mkdir
failure). -/
def syncEntry (wl : List String) (uf df mf : String → Bool) (relDir : String)
    (node : DNode) : LocalEntry → Except PyError (DNode × List RemoteOp)
  | .file name =>
    if pyStartsWith name "." || name = "__pycache__" then .ok (node, [])
    else
      let rel := relJoin relDir name
      if !(wl.any fun f => pyStartsWith rel (f ++ "/")) then .ok (node, [])
      else upload_file uf df rel node
  | .dir name entries =>
    if pyStartsWith name "." || name = "__pycache__" then .ok (node, [])
    else
      let rel := relJoin relDir name
      if !(wl.contains rel || (wl.any fun f => pyStartsWith rel (f ++ "/"))) then
        .ok (node, [])
      else
        match node with
        | .file => .error (.apiError 500)
        | .folder cs =>
          match childGet cs name with
          | some sub =>
            match syncEntries wl uf df mf rel sub entries with
            | .error e => .error e
            | .ok (sub', ops) => .ok (.folder (childModify cs name sub'), ops)
          | none =>
            if mf name then .error (.apiError 503)
            else
              match syncEntries wl uf df mf rel (.folder []) entries with
              | .error e => .error e
              | .ok (sub', ops) =>
                .ok (.folder (cs ++ [(name, sub')]), .mkdirOp name :: ops)
/-- The `for entry in it` loop of `sync_directory` over a directory
listing, threading the remote subtree and accumulating the trace. -/
def syncEntries (wl : List String) (uf df mf : String → Bool) (relDir : String)
    (node : DNode) : List LocalEntry → Except PyError (DNode × List RemoteOp)
  | [] => .ok (node, [])
  | e :: rest =>
    match syncEntry wl uf df mf relDir node e with
    | .error er => .error er
    | .ok (node1, ops1) =>
      match syncEntries wl uf df mf relDir node1 rest with
      | .error er => .error er
      | .ok (node2, ops2) => .ok (node2, ops1 ++ ops2)
end

/-- The full-sync branch of `main`: `sync_directory(api, os.getcwd(),
app_folder)` followed by `update_last_deployed_commit(app_folder,
current_hash)`. -/
def fullSyncRun (wl : List String) (uf df mf : String → Bool)
    (localRoot : List LocalEntry) (tree : DNode) (currentHash : String) :
    Except PyError (DNode × List RemoteOp) :=
  match syncEntries wl uf df mf "" tree localRoot with
  | .error e => .error e
  | .ok (t, ops) => .ok (writeMarkerNode t, ops ++ [.markerWrite currentHash])

/-! ## `get_last_deployed_commit` and `main` -/

/-- How the attempt to read the remote state file can go: the marker is
present with some raw content, the marker is absent (`KeyError` on
`app_folder[STATE_FILE_NAME]`), or some other exception occurs while
resolving or downloading it. -/
inductive ReadOutcome where
  | found : String → ReadOutcome
  | absent : ReadOutcome
  | failure : ReadOutcome

/-- `get_last_deployed_commit(app_folder)`: the downloaded content is
stripped; `except KeyError: return None`; and the catch-all handler
prints "Warning: Could not read state file" and also returns `None`. -/
def get_last_deployed_commit : ReadOutcome → Option String
  | .found content => some (pyStrip content)
  | .absent => none
  | .failure => none

/-- The deployment decision and run of `main` after authentication: read
the last deployed commit; a truthy value selects the incremental branch
over the parsed diff output, and `None` (or an empty string, which is
falsy) selects the full sync; either branch ends by writing the marker
with the current revision — except the incremental branch with an empty
change list, which writes nothing. -/
def mainRun (wl : List String) (locE rf df mf uf : String → Bool)
    (ro : ReadOutcome) (localRoot : List LocalEntry) (diffOutput : String)
    (currentHash : String) (tree : DNode) : Except PyError (DNode × List RemoteOp) :=
  match get_last_deployed_commit ro with
  | some lastHash =>
    if lastHash.data.isEmpty then fullSyncRun wl uf df mf localRoot tree currentHash
    else incrementalRun wl locE rf df mf uf tree (get_git_changes diffOutput) currentHash
  | none => fullSyncRun wl uf df mf localRoot tree currentHash

/-- The remote-call trace of a run (empty when the run aborted). -/
def runTrace (r : Except PyError (DNode × List RemoteOp)) : List RemoteOp :=
  match r with
  | .ok (_, ops) => ops
  | .error _ => []

/-! ## The marker store (`update_last_deployed_commit` content model) -/

/-- The app folder viewed as a name-indexed store of file contents, the
granularity at which the state-marker round trip happens. -/
abbrev RFolder := List (String × String)

/-- Name-indexed lookup in the store (`app_folder[name]`). -/
def rLookup : RFolder → String → Option String
  | [], _ => none
  | (n, c) :: rest, name => if n = name then some c else rLookup rest name

/-- Remove the file called `name`; iCloud folders are name-indexed with
unique names, so this drops every entry of that name. -/
def rErase (fld : RFolder) (name : String) : RFolder :=
  fld.filter fun e => !(e.1 = name : Bool)

/-- The store-level effect of `folder.upload(f)`: the uploaded file
replaces any file of the same name. -/
def rUpload (fld : RFolder) (name content : String) : RFolder :=
  rErase fld name ++ [(name, content)]

/-- `update_last_deployed_commit(app_folder, commit_hash)` at the content
level: write `commit_hash` to a scratch file named `STATE_FILE_NAME`,
delete any pre-existing marker (ignoring `KeyError`), and upload the
scratch file. -/
def update_last_deployed_commit (fld : RFolder) (commitHash : String) : RFolder :=
  rUpload (rErase fld STATE_FILE_NAME) STATE_FILE_NAME commitHash

/-- `get_last_deployed_commit(app_folder)` at the content level: download
the marker's content and strip it; `none` when the marker is absent. -/
def get_last_deployed_commit_store (fld : RFolder) : Option String :=
  (rLookup fld STATE_FILE_NAME).map pyStrip

/-- The run's final remote tree (`none` when the run aborted). -/
def runNode (r : Except PyError (DNode × List RemoteOp)) : Option DNode :=
  match r with
  | .ok (t, _) => some t
  | .error _ => none

/-! ## Helper lemmas about `retry_api_call` -/

/-- If attempts `i, …, m-1` all fail with a 503/500 API error and attempt
`m` succeeds (with `m` inside the attempt budget), the loop returns the
success and sleeps the exponential schedule `delay * 2 ^ j` for
`j = i, …, m-1`. -/
lemma retryLoop_ok_after_transient {α : Type} (f : Nat → Except PyError α)
    (retries delay : Nat) (codes : Nat → Nat) (m : Nat) (a : α)
    (hcodes : ∀ j, j < m → codes j = 503 ∨ codes j = 500)
    (hf : ∀ j, j < m → f j = .error (.apiError (codes j)))
    (hma : f m = .ok a) :
    ∀ fuel i, i + fuel = retries → i ≤ m → m < retries →
      retryLoop f retries delay i fuel = (some (.ok a), backoffs delay i (m - i)) := by
  intro fuel
  induction fuel with
  | zero => intro i hif him hm; omega
  | succ fuel ih =>
    intro i hif him hm
    by_cases hi : i = m
    · subst hi
      simp [retryLoop, hma, backoffs]
    · have hilt : i < m := lt_of_le_of_ne him hi
      have hfi : f i = .error (.apiError (codes i)) := hf i hilt
      have hcond : codes i = 503 ∨ codes i = 500 := hcodes i hilt
      have hine : i ≠ retries - 1 := by omega
      have hrec := ih (i + 1) (by omega) (by omega) hm
      have hmi : m - i = (m - (i + 1)) + 1 := by omega
      simp only [retryLoop, hfi]
      rw [if_pos hcond, if_neg hine, hrec, hmi]
      simp [backoffs]

/-- If attempts `i, …, m-1` all fail with a generic (non-API-response)
exception and attempt `m` succeeds, the loop returns the success and
sleeps the constant `delay` before every retry. -/
lemma retryLoop_ok_after_generic {α : Type} (f : Nat → Except PyError α)
    (retries delay : Nat) (m : Nat) (a : α)
    (hf : ∀ j, j < m → f j = .error .generic)
    (hma : f m = .ok a) :
    ∀ fuel i, i + fuel = retries → i ≤ m → m < retries →
      retryLoop f retries delay i fuel = (some (.ok a), List.replicate (m - i) delay) := by
  intro fuel
  induction fuel with
  | zero => intro i hif him hm; omega
  | succ fuel ih =>
    intro i hif him hm
    by_cases hi : i = m
    · subst hi
      simp [retryLoop, hma]
    · have hilt : i < m := lt_of_le_of_ne him hi
      have hfi : f i = .error .generic := hf i hilt
      have hine : i ≠ retries - 1 := by omega
      have hrec := ih (i + 1) (by omega) (by omega) hm
      have hmi : m - i = (m - (i + 1)) + 1 := by omega
      simp only [retryLoop, hfi]
      rw [if_neg hine, hrec, hmi]
      simp [List.replicate]

/-! ## Claim C3 -/

/-- Claim C3, counterexample.  The claim asserts that every
transient-classified failure — including a generic transient exception —
is followed by a sleep of `baseDelay * 2 ^ (attempt - 1)`.  On an
operation failing with a generic exception on the first two attempts and
succeeding on the third (`retries = 3`, `delay = 2`), the code sleeps the
constant `delay` twice: the sleep trace is `[2, 2]`, not the claimed
exponential `[2, 4]`. -/
theorem retry_generic_backoff_cex :
    retry_api_call (fun i => if i < 2 then .error .generic else .ok 42) 3 2
      = (some (.ok 42), [2, 2])
    ∧ ([2, 2] : List Nat) ≠ [2, 4] := by
  constructor
  · rfl
  · decide

/-- Claim C3 (amended): a 503/500 API failure on attempt `k < maxAttempts`
sleeps `baseDelay * 2 ^ (k - 1)` before the retry, while a generic
transient exception sleeps the constant `baseDelay`; in both classes up to
`maxAttempts` attempts are made.  `f` fails with 503/500 codes on the
first `m` attempts and succeeds on attempt `m`; `g` fails generically on
the first `m` attempts and succeeds on attempt `m`. -/
theorem retry_backoff_amended {α : Type} (f g : Nat → Except PyError α)
    (retries delay m : Nat) (a b : α) (codes : Nat → Nat)
    (hm : m < retries)
    (hcodes : ∀ j, j < m → codes j = 503 ∨ codes j = 500)
    (hf : ∀ j, j < m → f j = .error (.apiError (codes j)))
    (hfa : f m = .ok a)
    (hg : ∀ j, j < m → g j = .error .generic)
    (hgb : g m = .ok b) :
    retry_api_call f retries delay = (some (.ok a), backoffs delay 0 m)
    ∧ retry_api_call g retries delay = (some (.ok b), List.replicate m delay) := by
  constructor
  · have h := retryLoop_ok_after_transient f retries delay codes m a hcodes hf hfa
      retries 0 (by omega) (by omega) hm
    simpa [retry_api_call] using h
  · have h := retryLoop_ok_after_generic g retries delay m b hg hgb
      retries 0 (by omega) (by omega) hm
    simpa [retry_api_call] using h

/-- Claim C3, witness: an upload failing with a 503 API error on the first
two attempts and succeeding on the third, with the default
`retries = 3, delay = 2`, returns the success after sleeping `2` then `4`
seconds, while the same schedule under generic exceptions sleeps `2` then
`2`. -/
theorem retry_backoff_amended_witness :
    retry_api_call (fun i => if i < 2 then .error (.apiError 503) else .ok 42) 3 2
      = (some (.ok 42), [2, 4])
    ∧ retry_api_call (fun i => if i < 2 then .error .generic else .ok 42) 3 2
      = (some (.ok 42), [2, 2]) := by
  have h := retry_backoff_amended
    (fun i => if i < 2 then .error (.apiError 503) else .ok 42)
    (fun i => if i < 2 then .error .generic else .ok 42)
    3 2 2 42 42 (fun _ => 503) (by omega)
    (fun j _ => Or.inl rfl)
    (fun j hj => by interval_cases j <;> rfl)
    (by rfl)
    (fun j hj => by interval_cases j <;> rfl)
    (by rfl)
  exact ⟨h.1.trans (by rfl), h.2.trans (by rfl)⟩

/-! ## Claim C4 -/

/-- Claim C4: a `PyiCloudAPIResponseException` whose code is neither 503
nor 500 propagates immediately from the attempt where it occurs: the loop
returns that error with no sleep and no further attempt, and so does
`retry_api_call` when it happens on the first attempt. -/
theorem retry_nontransient_propagates {α : Type} (f : Nat → Except PyError α)
    (retries delay i c : Nat)
    (hc : f i = .error (.apiError c)) (h503 : c ≠ 503) (h500 : c ≠ 500) :
    (∀ fuel, retryLoop f retries delay i (fuel + 1)
        = (some (.error (.apiError c)), []))
    ∧ (0 < retries → i = 0 →
        retry_api_call f retries delay = (some (.error (.apiError c)), [])) := by
  have hstep : ∀ fuel, retryLoop f retries delay i (fuel + 1)
      = (some (.error (.apiError c)), []) := by
    intro fuel
    have hcond : ¬ (c = 503 ∨ c = 500) := by
      rintro (h | h) <;> simp_all
    simp only [retryLoop, hc]
    rw [if_neg hcond]
  refine ⟨hstep, fun hr hi => ?_⟩
  subst hi
  have h1 : retries = (retries - 1) + 1 := by omega
  rw [retry_api_call]
  nth_rewrite 2 [h1]
  exact hstep (retries - 1)

/-- Claim C4, witness: a 403 API response on the first attempt propagates
immediately with an empty sleep trace under the default budget. -/
theorem retry_nontransient_witness :
    retry_api_call (fun _ => (.error (.apiError 403) : Except PyError Nat)) 3 2
      = (some (.error (.apiError 403)), []) :=
  (retry_nontransient_propagates (fun _ => (.error (.apiError 403) : Except PyError Nat))
    3 2 0 403 rfl (by decide) (by decide)).2 (by decide) rfl

/-! ## Claim C1 -/

/-- Claim C1, counterexample.  The claim asserts that an incremental run
over an empty change set still writes the state marker with the new
revision id.  With the diff reporting no changed paths the code takes the
`if not changes` branch, which skips the whole `else` block — including
the `update_last_deployed_commit` call at its end: the trace of remote
calls is empty and contains no marker write. -/
theorem incremental_no_changes_cex :
    runTrace (incrementalRun FOLDERS_TO_SYNC nofail nofail nofail nofail nofail
        (.folder []) (get_git_changes "") "rev2") = []
    ∧ RemoteOp.markerWrite "rev2" ∉
        runTrace (incrementalRun FOLDERS_TO_SYNC nofail nofail nofail nofail nofail
          (.folder []) (get_git_changes "") "rev2") := by
  constructor
  · rfl
  · decide

/-- Claim C1 (amended): for every pair of revision ids between which the
diff reports no changed paths, the incremental run issues zero remote
mutations — and does not write the state marker either: the run leaves
the remote tree untouched with an empty call trace. -/
theorem incremental_no_changes (wl : List String) (locE rf df mf uf : String → Bool)
    (tree : DNode) (rev diffOutput : String)
    (hd : get_git_changes diffOutput = []) :
    incrementalRun wl locE rf df mf uf tree (get_git_changes diffOutput) rev
      = .ok (tree, []) := by
  rw [hd]
  rfl

/-- Claim C1, witness: an empty diff output yields an empty change list,
and the incremental run over it leaves the tree unchanged and issues no
remote call at all. -/
theorem incremental_no_changes_witness :
    incrementalRun FOLDERS_TO_SYNC nofail nofail nofail nofail nofail
      (.folder []) (get_git_changes "") "rev2" = .ok (.folder [], []) :=
  incremental_no_changes FOLDERS_TO_SYNC nofail nofail nofail nofail nofail
    (.folder []) "rev2" "" (by rfl)

/-! ## Claim C2 -/

/-- Claim C2: a change record whose path is outside the whitelist — not
exactly a whitelisted top-level name and not starting with a whitelisted
name followed by the separator — is skipped before any remote access,
whatever its status: the loop body returns with the tree unchanged and an
empty remote-call trace. -/
theorem whitelist_excluded_no_remote_call (wl : List String)
    (locE rf df mf uf : String → Bool) (tree : DNode) (status : Char) (path : String)
    (_hmem : path ∉ wl)
    (hpre : ∀ f ∈ wl, pyStartsWith path (f ++ "/") = false) :
    processChange wl locE rf df mf uf tree (status, path) = .ok (tree, []) := by
  have h : (wl.any fun f => pyStartsWith path (f ++ "/")) = false := by
    simp only [List.any_eq_false]
    intro f hf
    simp [hpre f hf]
  simp [processChange, h]

/-- Claim C2, witness: the path `notes/today.md` is not a whitelisted name
and starts with no whitelisted name followed by `/`; a `Deleted` record
for it produces no remote call. -/
theorem whitelist_excluded_witness :
    processChange FOLDERS_TO_SYNC nofail nofail nofail nofail nofail
      (.folder [("soup", .folder [])]) ('D', "notes/today.md")
      = .ok (.folder [("soup", .folder [])], []) :=
  whitelist_excluded_no_remote_call FOLDERS_TO_SYNC nofail nofail nofail nofail nofail
    (.folder [("soup", .folder [])]) 'D' "notes/today.md" (by decide) (by decide)

/-! ## Claim C5 -/

/-- Looking up `name` after erasing it and appending a fresh entry of that
name finds exactly the fresh entry. -/
lemma rLookup_rErase_append (fld : RFolder) (name content : String) :
    rLookup (rErase fld name ++ [(name, content)]) name = some content := by
  induction fld with
  | nil => simp [rErase, rLookup]
  | cons e rest ih =>
    by_cases h : e.1 = name
    · simpa [rErase, List.filter_cons, h] using ih
    · simpa [rErase, List.filter_cons, h, rLookup] using ih

/-- Claim C5, counterexample.  The claim asserts the write-then-read round
trip returns the written revision id exactly, for every revision id
(an opaque string in the data model).  Writing the marker stores the raw
string, but `get_last_deployed_commit` strips the downloaded content
(`f.read().strip()`), so a revision id carrying surrounding whitespace
comes back trimmed: writing `"abc\n"` reads back `"abc"`. -/
theorem marker_roundtrip_cex :
    get_last_deployed_commit_store (update_last_deployed_commit [] "abc\n") = some "abc"
    ∧ ("abc" : String) ≠ "abc\n" := by
  constructor
  · decide
  · decide

/-- Claim C5 (amended): the write-then-read round trip over the marker file
returns the written revision id stripped of surrounding whitespace — hence
exactly the written id for every id with no leading or trailing whitespace,
which holds for every id the script produces (`git rev-parse` output is
itself stripped at the source). -/
theorem marker_roundtrip_trimmed (fld : RFolder) (r : String)
    (h : pyStrip r = r) :
    get_last_deployed_commit_store (update_last_deployed_commit fld r) = some r := by
  unfold get_last_deployed_commit_store update_last_deployed_commit rUpload
  rw [rLookup_rErase_append]
  simp [h]

/-- Claim C5, witness: the round trip over an empty app folder returns the
whitespace-free revision id `"abc"` exactly. -/
theorem marker_roundtrip_witness :
    get_last_deployed_commit_store (update_last_deployed_commit [] "abc") = some "abc" :=
  marker_roundtrip_trimmed [] "abc" (by decide)

/-! ## Claim C10 -/

/-- `delete_file` always returns normally: its two handlers cover every
exception the body can raise. -/
lemma delete_file_always_ok (rf df : String → Bool) (tree : DNode) (relPath : String) :
    ∃ t log, delete_file rf df tree relPath = .ok (t, log) := by
  unfold delete_file
  cases h : delete_file_body rf df tree relPath with
  | ok t => exact ⟨t, .deleted, rfl⟩
  | error e => cases e <;> exact ⟨tree, _, rfl⟩

/-- Claim C10: for every input — including injected remote failures during
path resolution (`rf`) or during the delete call itself (`df`) — the
delete operation returns normally and never propagates an exception: the
`except KeyError` handler absorbs lookup misses and the catch-all
`except Exception` handler absorbs every other failure, so a failed delete
cannot abort the surrounding run. -/
theorem delete_file_never_raises (rf df : String → Bool) (tree : DNode) (relPath : String) :
    isOkE (delete_file rf df tree relPath) = true := by
  obtain ⟨t, log, h⟩ := delete_file_always_ok rf df tree relPath
  rw [h]
  rfl

/-! ## Claim C7 -/

/-- Claim C7, counterexample.  The claim asserts that a marker read failing
for any reason other than absence aborts the run with no sync and no
marker update.  The code's catch-all handler in `get_last_deployed_commit`
prints a warning and returns `None`, so `main` proceeds exactly as with no
prior deployment: here a read failure is followed by a full sync that
uploads `soup/lentil.cook` and then writes the marker. -/
theorem marker_read_failure_cex :
    RemoteOp.uploadOp "soup/lentil.cook" ∈
      runTrace (mainRun FOLDERS_TO_SYNC nofail nofail nofail nofail nofail
        .failure [LocalEntry.dir "soup" [.file "lentil.cook"]] "" "headrev" (.folder []))
    ∧ RemoteOp.markerWrite "headrev" ∈
      runTrace (mainRun FOLDERS_TO_SYNC nofail nofail nofail nofail nofail
        .failure [LocalEntry.dir "soup" [.file "lentil.cook"]] "" "headrev" (.folder [])) := by
  constructor
  · decide
  · decide

/-- Claim C7 (amended): a marker read that fails for a reason other than
absence is treated exactly like an absent marker — the warning is logged,
`None` is returned, and the run proceeds with a full sync and the final
marker write; the run is not aborted. -/
theorem marker_read_failure_as_absent (wl : List String)
    (locE rf df mf uf : String → Bool) (localRoot : List LocalEntry)
    (diffOutput currentHash : String) (tree : DNode) :
    mainRun wl locE rf df mf uf .failure localRoot diffOutput currentHash tree
      = mainRun wl locE rf df mf uf .absent localRoot diffOutput currentHash tree := by
  rfl

/-! ## Claim C8 -/

/-- Claim C8, counterexample.  The claim asserts the marker is written only
after every change application of the run has succeeded.  Here the single
change is a delete whose remote call fails (`alwaysFail` on the delete
oracle): `delete_file` swallows the error, the loop completes, and the
marker is written with the new revision — while the supposedly deleted
node `soup/x.cook` is still present in the final remote tree. -/
theorem marker_written_after_failed_delete_cex :
    RemoteOp.markerWrite "rev2" ∈
      runTrace (incrementalRun FOLDERS_TO_SYNC nofail nofail alwaysFail nofail nofail
        (.folder [("soup", .folder [("x.cook", .file)])]) [('D', "soup/x.cook")] "rev2")
    ∧ (runNode (incrementalRun FOLDERS_TO_SYNC nofail nofail alwaysFail nofail nofail
        (.folder [("soup", .folder [("x.cook", .file)])]) [('D', "soup/x.cook")] "rev2")).map
          (resolve ["soup", "x.cook"]) = some (some .file) := by
  constructor
  · decide
  · rfl

/-- Claim C8 (amended): the marker write happens after the change loop of a
non-empty incremental run completes, whether or not every change
application succeeded: a `Deleted` record can never abort the loop (its
errors are swallowed), so the marker is also written after a run with a
failed delete; only a propagating failure (an upsert) prevents the marker
write by aborting the run. -/
theorem marker_write_after_loop (wl : List String) (locE rf df mf uf : String → Bool)
    (tree : DNode) (changes : List (Char × String)) (rev : String)
    (hne : changes ≠ []) :
    (∀ t ops, applyChanges wl locE rf df mf uf tree changes = .ok (t, ops) →
      incrementalRun wl locE rf df mf uf tree changes rev
        = .ok (writeMarkerNode t, ops ++ [.markerWrite rev]))
    ∧ (∀ t p, isOkE (processChange wl locE rf df mf uf t ('D', p)) = true)
    ∧ (∀ e, applyChanges wl locE rf df mf uf tree changes = .error e →
      incrementalRun wl locE rf df mf uf tree changes rev = .error e) := by
  have hemp : changes.isEmpty = false := by
    cases changes with
    | nil => exact absurd rfl hne
    | cons c cs => rfl
  refine ⟨?_, ?_, ?_⟩
  · intro t ops h
    rw [incrementalRun, hemp, h]
    rfl
  · intro t p
    by_cases hwl : (wl.any fun f => pyStartsWith p (f ++ "/")) = true
    · obtain ⟨t', log, hd⟩ := delete_file_always_ok rf df t p
      simp [processChange, hwl, hd, isOkE]
    · simp only [Bool.not_eq_true] at hwl
      simp [processChange, hwl, isOkE]
  · intro e h
    rw [incrementalRun, hemp, h]
    rfl

/-- Claim C8, witness: the failed-delete run completes and appends the
marker write to the trace, and a `Deleted` record is processed without a
propagated exception. -/
theorem marker_write_after_loop_witness :
    incrementalRun FOLDERS_TO_SYNC nofail nofail alwaysFail nofail nofail
        (.folder [("soup", .folder [("x.cook", .file)])]) [('D', "soup/x.cook")] "rev2"
      = .ok (writeMarkerNode (.folder [("soup", .folder [("x.cook", .file)])]),
             [.deleteOp "soup/x.cook"] ++ [.markerWrite "rev2"])
    ∧ isOkE (processChange FOLDERS_TO_SYNC nofail nofail alwaysFail nofail nofail
        (.folder []) ('D', "soup/x.cook")) = true := by
  have h := marker_write_after_loop FOLDERS_TO_SYNC nofail nofail alwaysFail nofail nofail
    (.folder [("soup", .folder [("x.cook", .file)])]) [('D', "soup/x.cook")] "rev2"
    (by simp)
  exact ⟨h.1 (.folder [("soup", .folder [("x.cook", .file)])]) [.deleteOp "soup/x.cook"] (by rfl),
         h.2.1 (.folder []) "soup/x.cook"⟩

/-! ## Claim C9 -/

/-- Every upload and every delete the upsert traversal issues is at the
record's own path — the traversal only ever creates folders (`mkdirOp`)
at intermediate segments and uploads (after an optional overwrite delete)
at `relPath` itself. -/
lemma upsertAlong_ops_paths (mf uf df : String → Bool) (relPath : String) :
    ∀ (ds : List String) (node t' : DNode) (ops : List RemoteOp),
      upsertAlong mf uf df relPath ds node = .ok (t', ops) →
      ∀ p, (RemoteOp.uploadOp p ∈ ops → p = relPath)
         ∧ (RemoteOp.deleteOp p ∈ ops → p = relPath) := by
  intro ds
  induction ds with
  | nil =>
    intro node t' ops h p
    cases node with
    | file => simp [upsertAlong, upload_file] at h
    | folder cs =>
      cases hg : childGet cs (basename relPath) with
      | some c =>
        by_cases hdf : df relPath = true
        · simp [upsertAlong, upload_file, hg, hdf] at h
        · by_cases huf : uf relPath = true
          · simp [upsertAlong, upload_file, hg, hdf, huf] at h
          · simp [upsertAlong, upload_file, hg, hdf, huf] at h
            obtain ⟨-, hops⟩ := h
            subst hops
            constructor <;> intro hm <;> simpa using hm
      | none =>
        by_cases huf : uf relPath = true
        · simp [upsertAlong, upload_file, hg, huf] at h
        · simp [upsertAlong, upload_file, hg, huf] at h
          obtain ⟨-, hops⟩ := h
          subst hops
          constructor <;> intro hm
          · simpa using hm
          · simp at hm
  | cons d ds ih =>
    intro node t' ops h p
    cases node with
    | file => simp [upsertAlong] at h
    | folder cs =>
      cases hg : childGet cs d with
      | some c =>
        cases hrec : upsertAlong mf uf df relPath ds c with
        | error e => simp [upsertAlong, hg, hrec] at h
        | ok pr =>
          obtain ⟨c', ops0⟩ := pr
          simp [upsertAlong, hg, hrec] at h
          obtain ⟨-, hops⟩ := h
          subst hops
          exact ih c c' ops0 hrec p
      | none =>
        by_cases hmf : mf d = true
        · simp [upsertAlong, hg, hmf] at h
        · cases hrec : upsertAlong mf uf df relPath ds (.folder []) with
          | error e => simp [upsertAlong, hg, hmf, hrec] at h
          | ok pr =>
            obtain ⟨c', ops0⟩ := pr
            simp [upsertAlong, hg, hmf, hrec] at h
            obtain ⟨-, hops⟩ := h
            subst hops
            have hih := ih (.folder []) c' ops0 hrec p
            constructor <;> intro hm
            · rcases List.mem_cons.mp hm with hc | hc
              · simp at hc
              · exact hih.1 hc
            · rcases List.mem_cons.mp hm with hc | hc
              · simp at hc
              · exact hih.2 hc

/-- Claim C9, counterexample.  The claim asserts a rename is applied as an
upsert at the NEW path.  The parser keeps `parts[1]`, which for a rename
line `R100\told\tnew` is the OLD path; since the old path no longer exists
locally after the rename, the record is skipped with a warning.  With
`soup/old.cook` renamed to `soup/new.cook` (only the new file exists
locally), the run issues no upload at the new path — and no delete at the
old path either; its whole trace is the final marker write. -/
theorem rename_record_cex :
    get_git_changes "R100\tsoup/old.cook\tsoup/new.cook" = [('R', "soup/old.cook")]
    ∧ runTrace (incrementalRun FOLDERS_TO_SYNC (fun p => decide (p = "soup/new.cook"))
        nofail nofail nofail nofail (.folder [("soup", .folder [("old.cook", .file)])])
        (get_git_changes "R100\tsoup/old.cook\tsoup/new.cook") "rev2")
      = [.markerWrite "rev2"]
    ∧ RemoteOp.uploadOp "soup/new.cook" ∉
        runTrace (incrementalRun FOLDERS_TO_SYNC (fun p => decide (p = "soup/new.cook"))
          nofail nofail nofail nofail (.folder [("soup", .folder [("old.cook", .file)])])
          (get_git_changes "R100\tsoup/old.cook\tsoup/new.cook") "rev2")
    ∧ RemoteOp.deleteOp "soup/old.cook" ∉
        runTrace (incrementalRun FOLDERS_TO_SYNC (fun p => decide (p = "soup/new.cook"))
          nofail nofail nofail nofail (.folder [("soup", .folder [("old.cook", .file)])])
          (get_git_changes "R100\tsoup/old.cook\tsoup/new.cook") "rev2") := by
  refine ⟨by decide, by decide, by decide, by decide⟩

/-- Claim C9 (amended): the incremental path parses a rename as a single
`'R'` record carrying the OLD path and treats it as an upsert at that old
path; when the old path no longer exists locally (the normal situation
after a rename) the record is logged and skipped entirely — no upload, no
folder creation, no delete; and even when the old path does still exist,
every upload or delete the upsert issues is at the old path, never at the
new one, and the old path's remote node is never deleted by a dedicated
delete pass. -/
theorem rename_upsert_old_path (wl : List String)
    (locE rf df mf uf : String → Bool) (tree : DNode) (oldPath : String)
    (hloc : locE oldPath = false) :
    processChange wl locE rf df mf uf tree ('R', oldPath) = .ok (tree, [])
    ∧ (∀ t' ops p, upsertAlong mf uf df oldPath (dirSegments oldPath) tree = .ok (t', ops) →
        (RemoteOp.uploadOp p ∈ ops → p = oldPath)
        ∧ (RemoteOp.deleteOp p ∈ ops → p = oldPath)) := by
  constructor
  · by_cases hwl : (wl.any fun f => pyStartsWith oldPath (f ++ "/")) = true
    · simp [processChange, hwl, hloc]
    · simp only [Bool.not_eq_true] at hwl
      simp [processChange, hwl]
  · intro t' ops p h
    exact upsertAlong_ops_paths mf uf df oldPath (dirSegments oldPath) tree t' ops h p

/-- Claim C9, witness: a rename record for `soup/old.cook` (renamed to
`soup/new.cook`, so only the new file exists locally) is skipped without
touching the remote tree. -/
theorem rename_upsert_old_path_witness :
    processChange FOLDERS_TO_SYNC (fun p => decide (p = "soup/new.cook"))
      nofail nofail nofail nofail (.folder [("soup", .folder [("old.cook", .file)])])
      ('R', "soup/old.cook")
      = .ok (.folder [("soup", .folder [("old.cook", .file)])], []) :=
  (rename_upsert_old_path FOLDERS_TO_SYNC (fun p => decide (p = "soup/new.cook"))
    nofail nofail nofail nofail (.folder [("soup", .folder [("old.cook", .file)])])
    "soup/old.cook" (by decide)).1

/-! ## Claim C6 -/

/-- With no injected remote failure, the navigation loop of `delete_file`
succeeds exactly when the path resolves, and raises `KeyError` otherwise. -/
lemma navigateSegs_nofail : ∀ (ps : List String) (t : DNode),
    navigateSegs nofail ps t =
      match resolve ps t with
      | some n => Except.ok n
      | none => Except.error .keyError := by
  intro ps
  induction ps with
  | nil => intro t; rfl
  | cons p ps ih =>
    intro t
    cases t with
    | file => rfl
    | folder cs =>
      simp only [navigateSegs, resolve, nofail]
      cases hg : childGet cs p with
      | none => simp
      | some c => simpa using ih c

/-- In a duplicate-free child list, erasing `name` makes its lookup miss. -/
lemma childGet_childErase_self : ∀ (cs : List (String × DNode)) (name : String),
    childrenWF cs = true → childGet (childErase cs name) name = none := by
  intro cs
  induction cs with
  | nil => intro name _; rfl
  | cons e rest ih =>
    intro name h
    obtain ⟨n, c⟩ := e
    simp only [childrenWF, Bool.and_eq_true, Option.isNone_iff_eq_none] at h
    obtain ⟨⟨hdup, _⟩, hwfr⟩ := h
    by_cases hn : n = name
    · subst hn
      simpa [childErase] using hdup
    · simp only [childErase, if_neg hn, childGet]
      exact ih name hwfr

/-- Replacing the child found at `name` is visible to the next lookup. -/
lemma childGet_childModify_self : ∀ (cs : List (String × DNode)) (name : String)
    (newC c : DNode), childGet cs name = some c →
      childGet (childModify cs name newC) name = some newC := by
  intro cs
  induction cs with
  | nil => intro name newC c h; cases h
  | cons e rest ih =>
    intro name newC c h
    obtain ⟨n, x⟩ := e
    by_cases hn : n = name
    · subst hn
      simp [childModify, childGet]
    · simp only [childGet, if_neg hn] at h
      simp only [childModify, if_neg hn, childGet]
      exact ih name newC c h

/-- In a well-formed child list every child found by lookup is itself a
well-formed tree. -/
lemma nodeWF_of_childGet : ∀ (cs : List (String × DNode)) (name : String) (c : DNode),
    childrenWF cs = true → childGet cs name = some c → nodeWF c = true := by
  intro cs
  induction cs with
  | nil => intro name c _ h; cases h
  | cons e rest ih =>
    intro name c h hg
    obtain ⟨n, x⟩ := e
    simp only [childrenWF, Bool.and_eq_true] at h
    obtain ⟨⟨_, hwfx⟩, hwfr⟩ := h
    by_cases hn : n = name
    · subst hn
      simp only [childGet, if_pos rfl] at hg
      cases hg
      exact hwfx
    · simp only [childGet, if_neg hn] at hg
      exact ih name c hwfr hg

/-- Deleting the node a non-empty path resolves to makes the same path
unresolvable in a well-formed tree. -/
lemma resolve_removeAt : ∀ (ps : List String), ps ≠ [] → ∀ (t n : DNode),
    nodeWF t = true → resolve ps t = some n →
      resolve ps (removeAt ps t) = none := by
  intro ps
  induction ps with
  | nil => intro h; exact absurd rfl h
  | cons p ps ih =>
    intro _ t n hwf hres
    cases t with
    | file => cases hres
    | folder cs =>
      have hwfc : childrenWF cs = true := by simpa [nodeWF] using hwf
      cases ps with
      | nil =>
        simp only [removeAt, resolve]
        rw [childGet_childErase_self cs p hwfc]
      | cons q qs =>
        simp only [resolve] at hres
        cases hg : childGet cs p with
        | none => rw [hg] at hres; cases hres
        | some c =>
          rw [hg] at hres
          have hwfcc : nodeWF c = true := nodeWF_of_childGet cs p c hwfc hg
          have hnone := ih (by simp) c n hwfcc hres
          simp only [removeAt]
          rw [hg]
          simp only [resolve]
          rw [childGet_childModify_self cs p (removeAt (q :: qs) c) c hg]
          exact hnone

/-- Claim C6: deleting the same relative path twice in succession produces
no error on the second call — after a first `delete_file` over a
well-formed remote tree (no injected failures), the second call finds
some segment lookup failing, treats the whole path as already absent, and
returns normally with the tree unchanged. -/
theorem deleteIfExists_idempotent (tree : DNode) (relPath : String)
    (hwf : nodeWF tree = true) (hne : pySplit relPath '/' ≠ []) :
    ∀ t1 l1, delete_file nofail nofail tree relPath = .ok (t1, l1) →
      delete_file nofail nofail t1 relPath = .ok (t1, .skippedNotFound) := by
  have hbNone : ∀ t : DNode, resolve (pySplit relPath '/') t = none →
      delete_file nofail nofail t relPath = .ok (t, .skippedNotFound) := by
    intro t ht
    unfold delete_file delete_file_body
    rw [navigateSegs_nofail, ht]
  have hbSome : ∀ (t : DNode) (n : DNode), resolve (pySplit relPath '/') t = some n →
      delete_file nofail nofail t relPath
        = .ok (removeAt (pySplit relPath '/') t, .deleted) := by
    intro t n ht
    unfold delete_file delete_file_body
    rw [navigateSegs_nofail, ht]
    rfl
  intro t1 l1 h1
  cases hres : resolve (pySplit relPath '/') tree with
  | none =>
    rw [hbNone tree hres] at h1
    injection h1 with hpair
    injection hpair with hA hB
    subst hA
    exact hbNone tree hres
  | some n =>
    rw [hbSome tree n hres] at h1
    injection h1 with hpair
    injection hpair with hA hB
    subst hA
    exact hbNone _ (resolve_removeAt (pySplit relPath '/') hne tree n hwf hres)

/-- Claim C6, witness: deleting `soup/x.cook` twice from a tree that
contains it — the first call removes the node, the second reports it
absent and leaves the tree unchanged. -/
theorem deleteIfExists_idempotent_witness :
    delete_file nofail nofail (.folder [("soup", .folder [])]) "soup/x.cook"
      = .ok (.folder [("soup", .folder [])], .skippedNotFound) :=
  deleteIfExists_idempotent (.folder [("soup", .folder [("x.cook", .file)])])
    "soup/x.cook" (by decide) (by decide)
    (.folder [("soup", .folder [])]) .deleted (by rfl)


end Deploy
